import Mathlib

/-!
Shallow embedding of the aospy calculation engine (calc.py, data_loader.py,
region.py, internal_names.py) together with theorems settling the spec
claims.  Datasets are modelled as association lists from variable names to
data, time axes as lists of rational hour stamps, and file systems as lists
of existing paths.
-/

namespace Aospy

/-- An aospy `Var`: canonical name plus the ordered list of acceptable
on-disk alias names (`Var.names` in the source; the canonical name is
normally its head). -/
structure Var where
  name : String
  names : List String
deriving Repr, DecidableEq

/-- A dataset, as the part of an `xarray.Dataset` the loaders consult: an
association list from variable names to data values. -/
def Dset (α : Type) : Type := List (String × α)

/-- Source `DataLoader._sel_var` (data_loader.py lines 124-152): walk `var.names`
in declared order; the first name found in the dataset is returned renamed
to the canonical `var.name`; if none is present, raise `KeyError` (the
VariableNotFound error of the spec).  The `KeyError` message interpolates
the variable and its alias list (we render the variable by its name and
elide the trailing dataset repr of the source message). -/
def selVarErrMsg (var : Var) : String :=
  var.name ++ " not found in among names:" ++
    String.intercalate ", " var.names

/-- The alias-resolution loop of `DataLoader._sel_var`. -/
def selVar {α : Type} (ds : Dset α) (var : Var) : Except String (String × α) :=
  go var.names
where
  go : List String → Except String (String × α)
  | [] => .error (selVarErrMsg var)
  | n :: rest =>
    match (ds : List (String × α)).lookup n with
    | some d => .ok (var.name, d)
    | none => go rest

/-- Source `internal_names.ETA_STR`. -/
def ETA_STR : String := "sigma"

/-- Source `internal_names.TIME_STR`. -/
def TIME_STR : String := "time"

/-- Substring occurrence on character lists: does `sub` occur
contiguously? -/
def hasSubstr (sub : List Char) : List Char → Bool
  | [] => sub.isEmpty
  | c :: t => sub.isPrefixOf (c :: t) || hasSubstr sub t

/-- The Python `sub in s` substring test, on the underlying characters. -/
def strContains (s sub : String) : Bool := hasSubstr sub.data s.data

/-- The Python `s.endswith(suf)`, on the underlying characters. -/
def strEndsWith (s suf : String) : Bool := suf.data.isSuffixOf s.data

/-- The Python `s.split(sep)` for a single-character separator, on the
underlying characters. -/
def splitOnCharList (sep : Char) : List Char → List (List Char)
  | [] => [[]]
  | c :: t =>
    let r := splitOnCharList sep t
    if c == sep then [] :: r
    else
      match r with
      | h :: t2 => (c :: h) :: t2
      | [] => [[c]]

/-- The Python `s.split(".")` as used on output-kind strings. -/
def strSplitDot (s : String) : List String :=
  (splitOnCharList '.' s.data).map (fun l => ⟨l⟩)

/-- The Python `s.replace(sub, repl)`: replace every non-overlapping
occurrence, scanning left to right. -/
def replaceAll (sub repl : List Char) : List Char → List Char
  | [] => []
  | c :: t =>
    if sub.isPrefixOf (c :: t) && !sub.isEmpty then
      repl ++ replaceAll sub repl ((c :: t).drop sub.length)
    else c :: replaceAll sub repl t
termination_by l => l.length
decreasing_by
  · simp only [List.length_drop, List.length_cons]
    rename_i h
    cases sub with
    | nil => simp at h
    | cons a as => simp only [List.length_cons]; omega
  · simp [Nat.lt_succ_self]

/-- The Python `s.replace(sub, repl)` on strings. -/
def strReplace (s sub repl : String) : String :=
  ⟨replaceAll sub.data repl.data s.data⟩

/-- Code-point lexicographic comparison of character lists: the order
underlying the Python string sort. -/
def charListLt : List Char → List Char → Bool
  | _, [] => false
  | [], _ :: _ => true
  | a :: as, b :: bs =>
    if a.toNat < b.toNat then true
    else if b.toNat < a.toNat then false
    else charListLt as bs

/-- The Python string less-or-equal, via code points. -/
def strLe (a b : String) : Bool := a == b || charListLt a.data b.data

/-- The Python `os.path.join a b` for a non-absolute second component. -/
def joinPath (a b : String) : String := a ++ "/" ++ b

/-- The Python `list(set(files))` followed by `files.sort()`: the ascending
enumeration of the distinct elements. -/
def dedupSort (files : List String) : List String :=
  List.insertionSort (fun a b => strLe a b = true) files.dedup

/-- The Python `range(a, b + 1)` over years: the integers from `a` to `b`
inclusive, empty when `a > b`. -/
def yearRange (startYear endYear : Int) : List Int :=
  if startYear ≤ endYear then
    (List.range (endYear - startYear + 1).toNat).map (fun i => startYear + i)
  else []

/-- Source `DictDataLoader` (data_loader.py lines 210-236): a flat map from
`intvl_in` tags to lists of files. -/
structure DictDataLoader where
  fileMap : List (String × List String)

/-- Source `DictDataLoader._generate_file_set`: return `file_map[intvl_in]`
verbatim (no sorting, no deduplication, no existence check); `KeyError`
when the interval is absent. -/
def DictDataLoader.generateFileSet (ldr : DictDataLoader) (intvlIn : String) :
    Except String (List String) :=
  match ldr.fileMap.lookup intvlIn with
  | some fs => .ok fs
  | none => .error ("File set does not exist for the specified intvl_in " ++ intvlIn)

/-- Source `NestedDictDataLoader` (data_loader.py lines 239-267): a nested map
from `intvl_in` to maps from variable names to lists of files. -/
structure NestedDictDataLoader where
  fileMap : List (String × List (String × List String))

/-- Source `NestedDictDataLoader._generate_file_set`: try `file_map[intvl_in][name]`
for each alias `name` of the variable in declared order, returning the
stored list verbatim; `KeyError` naming the variable and interval when no
alias is present. -/
def NestedDictDataLoader.generateFileSet (ldr : NestedDictDataLoader)
    (var : Var) (intvlIn : String) : Except String (List String) :=
  go var.names
where
  go : List String → Except String (List String)
  | [] => .error ("Files for the var " ++ var.name ++ " cannot be found in for the " ++
      "intvl_in " ++ intvlIn ++ " in this OneDirDataLoader")
  | n :: rest =>
    match ldr.fileMap.lookup intvlIn with
    | some inner =>
      match inner.lookup n with
      | some fs => .ok fs
      | none => go rest
    | none => go rest

/-- Source `GFDLDataLoader` (data_loader.py lines 270-322) after construction:
root directory, years per file, and start year of the data. -/
structure GFDLDataLoader where
  dataDirec : String
  dataDur : Nat
  dataStartYear : Int

/-- Modelled from the spec: `aospy.utils.io.data_name_gfdl` is not under
`src/`.  Per §6 the generated file name "encodes variable, domain,
sampling, interval, year, output interval, start year, and duration"; we
encode those eight parameters as a dot-separated string. -/
def dataNameGfdl (name domain dtype intvlIn : String) (year : Int)
    (intvlOut : String) (dataStartYear : Int) (dataDur : Nat) : String :=
  String.intercalate "."
    [name, domain, dtype, intvlIn, toString year, intvlOut,
     toString dataStartYear, toString dataDur ++ "yr", "nc"]

/-- Source `GFDLDataLoader._input_data_paths_gfdl` (data_loader.py lines
358-386): build the per-year candidate paths under the GFDL directory
convention, then `list(set(files))` and `files.sort()`. -/
def GFDLDataLoader.inputDataPathsGfdl (ldr : GFDLDataLoader) (name : String)
    (startYear endYear : Int) (domain intvlIn dtypeInVert dtypeInTime intvlOut : String) :
    List String :=
  let domain1 := if intvlIn == "daily" then domain ++ "_daily" else domain
  let domain2 := if dtypeInVert == ETA_STR && name ≠ "ps" then domain1 ++ "_level"
                 else domain1
  let domain3 := if dtypeInTime == "inst" then domain2 ++ "_inst" else domain2
  let dtypeLbl0 := if dtypeInTime == "inst" then "ts" else dtypeInTime
  let dtype := if strContains dtypeInTime "monthly_from_" then
                 strReplace dtypeInTime "monthly_from_" "" else dtypeInTime
  let dtypeLbl := if strContains dtypeInTime "monthly_from_" then dtype else dtypeLbl0
  let durStr := toString ldr.dataDur ++ "yr"
  let subdir := if dtypeInTime == "av" then intvlIn ++ "_" ++ durStr
                else joinPath intvlIn durStr
  let direc := joinPath (joinPath (joinPath ldr.dataDirec domain3) dtypeLbl) subdir
  let files := (yearRange startYear endYear).map (fun year =>
    joinPath direc (dataNameGfdl name domain3 dtype intvlIn year intvlOut
      ldr.dataStartYear ldr.dataDur))
  dedupSort files

/-- Source `GFDLDataLoader._generate_file_set` (data_loader.py lines 346-356):
try each alias in declared order; return the first generated file set all
of whose paths exist in the file system `fs`; otherwise raise `IOError`
(the message concatenates two string literals with no separating space and
names only the variable). -/
def gfdlLocateErrMsg (varName : String) : String :=
  "Files for the var " ++ varName ++
    " cannot be locatedusing GFDL post-processing conventions"

/-- The alias loop of `GFDLDataLoader._generate_file_set`: the first alias
all of whose generated paths exist in `fs` wins; `all` over an empty path
list is vacuously true. -/
def GFDLDataLoader.generateFileSet (ldr : GFDLDataLoader) (fs : List String)
    (var : Var) (startYear endYear : Int)
    (domain intvlIn dtypeInVert dtypeInTime intvlOut : String) :
    Except String (List String) :=
  go var.names
where
  go : List String → Except String (List String)
  | [] => .error (gfdlLocateErrMsg var.name)
  | n :: rest =>
    let fileSet := ldr.inputDataPathsGfdl n startYear endYear domain intvlIn
      dtypeInVert dtypeInTime intvlOut
    if fileSet.all (fs.contains ·) then .ok fileSet else go rest

/-- Source `utils.times.apply_time_offset` restricted to whole hours, acting on a
time axis of rational hour stamps. -/
def applyTimeOffsetHours (off : Int) (ts : List ℚ) : List ℚ :=
  ts.map (fun t => t + (off : ℚ))

/-- Numeric value of a digit character, as the Python `int(c)`. -/
def digitVal (c : Char) : Int := (c.toNat : Int) - 48

/-- Source `GFDLDataLoader._maybe_apply_time_shift` (data_loader.py lines
324-344): an explicit `time_offset` is applied as given; otherwise, when
`dtype_in_time == inst` and `intvl_in` ends in `hr`, the time axis is
shifted by minus the leading digit of `intvl_in` in hours (0 hours when it
does not end in `hr`); missing attributes (`KeyError`) leave the axis
unchanged. -/
def maybeApplyTimeShiftGFDL (timeOffset : Option Int)
    (dtypeInTime intvlIn : Option String) (ts : List ℚ) : List ℚ :=
  match timeOffset with
  | some o => applyTimeOffsetHours o ts
  | none =>
    match dtypeInTime with
    | none => ts
    | some dt =>
      if dt == "inst" then
        match intvlIn with
        | none => ts
        | some iv =>
          let off : Int :=
            if strEndsWith iv "hr" then -1 * digitVal (iv.data.headD '0')
            else 0
          applyTimeOffsetHours off ts
      else ts

/-- Modelled from the spec: `utils.times.sel_time` is not under `src/`.
Per §4.4 step 3 it restricts the series to the requested date range; we
model it as the inclusive filter of the time axis. -/
def selTime (startHr endHr : ℚ) (ts : List ℚ) : List ℚ :=
  ts.filter (fun t => startHr ≤ t && t ≤ endHr)

/-- The time-axis effect of `DataLoader.load_variable` (data_loader.py
lines 43-63): the time shift (line 59) is applied first, and the date-range
selection (lines 60-63) acts on the shifted axis. -/
def loadVariableTimesGFDL (timeOffset : Option Int)
    (dtypeInTime intvlIn : Option String) (startHr endHr : ℚ) (ts : List ℚ) :
    List ℚ :=
  selTime startHr endHr (maybeApplyTimeShiftGFDL timeOffset dtypeInTime intvlIn ts)

/-- Source `Calc._correct_gfdl_inst_time` (calc.py lines 484-493): shift by -3
hours for `3hr` input, -6 hours for `6hr` input; any other interval
leaves `offset` unbound (an `UnboundLocalError`), modelled as `none`. -/
def correctGfdlInstTime (intvlIn : String) (ts : List ℚ) : Option (List ℚ) :=
  if intvlIn == "3hr" then some (applyTimeOffsetHours (-3) ts)
  else if intvlIn == "6hr" then some (applyTimeOffsetHours (-6) ts)
  else none

/-- A time series carrying, per timestep, the calendar year of its
timestamp and a rational value: the part of an `xray.DataArray` that
`groupby` over `time.year` consults. -/
def YearSeries : Type := List (Int × ℚ)

/-- The `groupby` over `time.year` followed by `sum(TIME_STR)` evaluated at one year: the sum of
the values whose timestamp falls in year `y`. -/
def groupSumByYear (xs : YearSeries) (y : Int) : ℚ :=
  (((xs : List (Int × ℚ)).filter (fun p => p.1 == y)).map Prod.snd).sum

/-- Pointwise product `arr*dt` of two series sharing one time axis
(xarray aligns them; we model aligned series positionally, keeping
the time coordinate of `arr`). -/
def seriesMul (arr dt : YearSeries) : YearSeries :=
  (arr : List (Int × ℚ)).zipWith (fun a d => (a.1, a.2 * d.2)) dt

/-- Source `Calc._avg_by_year` (calc.py lines 616-619) evaluated at one year:
the year-grouped sum of `arr*dt` divided by the year-grouped sum of
`dt`. -/
def avgByYear (arr dt : YearSeries) (y : Int) : ℚ :=
  groupSumByYear (seriesMul arr dt) y / groupSumByYear dt y

/-- The `dt` selection in `Calc._compute` (calc.py lines 588-592): for
instantaneous input (`dtype_in_time == inst`) the weights are an array
of ones over the time axis of the series; otherwise the stored `average_DT`
durations are used. -/
def computeDt (dtypeInTime : String) (dtStored : YearSeries)
    (timeAxis : List Int) : YearSeries :=
  if dtypeInTime == "inst" then timeAxis.map (fun y => (y, (1 : ℚ)))
  else dtStored

/-- Duration-weighted mean over the timesteps of year `y`, written from
the words of the spec (§4.4 step 7: "sum(value_i * duration_i) /
sum(duration_i) over the timesteps of that year") for comparison with
`avgByYear`.  Entries are (year, value, duration) triples. -/
def specWeightedMeanYear (entries : List (Int × ℚ × ℚ)) (y : Int) : ℚ :=
  ((entries.filter (fun e => e.1 == y)).map (fun e => e.2.1 * e.2.2)).sum /
  ((entries.filter (fun e => e.1 == y)).map (fun e => e.2.2)).sum

/-- The value series of a (year, value, duration) triple list. -/
def arrOf (entries : List (Int × ℚ × ℚ)) : YearSeries :=
  entries.map (fun e => (e.1, e.2.1))

/-- The duration series of a (year, value, duration) triple list. -/
def dtOf (entries : List (Int × ℚ × ℚ)) : YearSeries :=
  entries.map (fun e => (e.1, e.2.2))

/-- The supported terminal reducers of `Calc._time_reduce` (calc.py lines
629-641). -/
inductive ReduceOp where
  | ident
  | avOp
  | stdOp
deriving Repr, DecidableEq

/-- The dispatch table of `Calc._time_reduce`: `None` and `ts` are the
identity, `av` the mean over years, `std` the standard deviation over
years; any other token raises a `ValueError` with this message (we elide
the quote characters around the interpolated token). -/
def timeReduceErrMsg (reduction : String) : String :=
  "Specified time-reduction method " ++ reduction ++ " is not supported"

/-- The dispatch of `Calc._time_reduce` over its `reductions` table. -/
def timeReduce (reduction : String) : Except String ReduceOp :=
  if reduction == "None" then .ok .ident
  else if reduction == "ts" then .ok .ident
  else if reduction == "av" then .ok .avOp
  else if reduction == "std" then .ok .stdOp
  else .error (timeReduceErrMsg reduction)

/-- The names `getattr(reg, func)` can resolve on a `Region` (region.py):
its reduction methods. -/
def regionAttrs : List String := ["ts", "av", "std", "mask_var", "make_mask"]

/-- The observable phases of `Calc.compute` (calc.py lines 657-715), in
execution order: input gathering (line 660), transform execution inside
`_compute_full_ts` for the full and monthly series (lines 670, 675),
regional reduction, time reduction (lines 697-708), and the final saves
(lines 713-715). -/
inductive Event where
  | gather
  | transformFull
  | transformMonthly
  | regionCalc (dout : String)
  | reduce (dout : String)
  | save (dout : String)
deriving Repr, DecidableEq

/-- The reduction loop of `Calc.compute` (lines 695-708): for each
requested output kind, split on the dot, take the last token as the
reducer; a `reg` token routes through `Region` method dispatch
(`region_calcs`), otherwise `_time_reduce` runs and an unknown token
aborts the loop with its `ValueError`. -/
def reduceEvents (dtypeInTime : String) :
    List String → List Event → List Event × Except String Unit
  | [], acc => (acc, .ok ())
  | d :: rest, acc =>
    let specs := strSplitDot d
    let func := specs.getLastD ""
    if specs.contains "reg" then
      if strContains dtypeInTime "av" then
        reduceEvents dtypeInTime rest (acc ++ [.regionCalc d])
      else if regionAttrs.contains func then
        reduceEvents dtypeInTime rest (acc ++ [.regionCalc d])
      else (acc, .error ("AttributeError: Region has no attribute " ++ func))
    else
      match timeReduce func with
      | .ok _ => reduceEvents dtypeInTime rest (acc ++ [.reduce d])
      | .error m => (acc, .error m)

/-- The phases of `Calc.compute` (calc.py lines 657-682) that run before
any reduction: input gathering (line 660) and the transform executions
for the full and/or monthly series, as the `bool_monthly`/`bool_eddy`
flags dictate (lines 666-682). -/
def gatherEvents (dtypeInTime : String) (douts : List String) : List Event :=
  let boolMonthly := strContains dtypeInTime "monthly_from" ::
    douts.map (fun d => strContains d "time-mean")
  let boolEddy := douts.map (fun d => strContains d "eddy")
  let ev1 := if !(boolMonthly.all id) then [Event.gather, Event.transformFull]
             else [Event.gather]
  if boolEddy.any id || boolMonthly.any id then
    ev1 ++ [Event.transformMonthly]
  else ev1

/-- The trace of `Calc.compute` proper: the gather/transform phases of
`gatherEvents`, then the reduction loop, then one save per requested
output kind — or, for a variable with no time dimension, a single save
under the empty key with no reduction at all. -/
def computeTrace (defTime : Bool) (dtypeInTime : String)
    (douts : List String) : List Event × Except String Unit :=
  let ev2 := gatherEvents dtypeInTime douts
  if defTime then
    match reduceEvents dtypeInTime douts [] with
    | (revs, .ok ()) => (ev2 ++ revs ++ douts.map Event.save, .ok ())
    | (revs, .error m) => (ev2 ++ revs, .error m)
  else
    (ev2 ++ [Event.save ""], .ok ())

/-- One grid cell of a dataset as the `Region` methods consult it:
latitude/longitude coordinates, cell area (`sfc_area`), the field value,
and the land fraction (`land_mask`). -/
structure Cell where
  lat : ℚ
  lon : ℚ
  area : ℚ
  value : ℚ
  land : ℚ
deriving Repr, DecidableEq

/-- A gridded dataset: its cells, and whether it carries a `land_mask`
field (`Region._get_land_mask` falls back to weight 1 with a warning when
it does not). -/
structure GridData where
  cells : List Cell
  hasLandMask : Bool
deriving Repr

/-- The `do_land_mask` modes of region.py lines 55-61 (the `strict_land`
and `strict_ocean` modes raise `NotImplementedError` and are outside this
model). -/
inductive LandMode where
  | offMode
  | landMode
  | oceanMode
deriving Repr, DecidableEq

/-- Source `Region` (region.py lines 7-18): a name, a union of
(latitude-bounds, longitude-bounds) rectangles, and a land-mask mode. -/
structure Region where
  name : String
  maskBounds : List ((ℚ × ℚ) × (ℚ × ℚ))
  doLandMask : LandMode

/-- Source `Region._add_to_mask` (region.py lines 25-31): strict-inequality
membership of a cell in one lat-lon rectangle. -/
def addToMask (c : Cell) (latB lonB : ℚ × ℚ) : Bool :=
  (latB.1 < c.lat && c.lat < latB.2) && (lonB.1 < c.lon && c.lon < lonB.2)

/-- Source `Region.make_mask` (region.py lines 33-39): the or-fold of the
rectangle masks, starting from `False`. -/
def makeMask (r : Region) (c : Cell) : Bool :=
  r.maskBounds.foldl (fun m b => m || addToMask c b.1 b.2) false

/-- Source `Region._get_land_mask` (region.py lines 45-61) as a per-cell weight:
1 when the dataset carries no land mask, the land fraction in `land`
mode, one minus it in `ocean` mode, and 1 when masking is off. -/
def landMaskFactor (g : GridData) (mode : LandMode) (c : Cell) : ℚ :=
  if !g.hasLandMask then 1
  else match mode with
    | .landMode => c.land
    | .oceanMode => 1 - c.land
    | .offMode => 1

/-- Source `Region.ts` (region.py lines 68-75): NaN-skipping sums over the
masked cells give the area- and land-weighted mean
`sum(value*area*lm over mask) / sum(area*lm over mask)`. -/
def regionTs (r : Region) (g : GridData) : ℚ :=
  let included := g.cells.filter (makeMask r)
  (included.map (fun c => c.value * c.area * landMaskFactor g r.doLandMask c)).sum /
  (included.map (fun c => c.area * landMaskFactor g r.doLandMask c)).sum

/-- The total inclusion weight in the denominator of `Region.ts`. -/
def regionWeights (r : Region) (g : GridData) : ℚ :=
  ((g.cells.filter (makeMask r)).map
    (fun c => c.area * landMaskFactor g r.doLandMask c)).sum

/-- Python dict / `xray.Dataset.update` semantics (`reg_data.update(data)`
in calc.py line 730): keys already present keep their position but take
the new value; keys only in `new` are appended. -/
def dsUpdate {α : Type} (old new : List (String × α)) : List (String × α) :=
  old.map (fun p => (p.1, ((new.lookup p.1).getD p.2))) ++
    new.filter (fun p => !(old.map Prod.fst).contains p.1)

/-- The variable names of a dataset. -/
def dsKeys {α : Type} (d : List (String × α)) : List String := d.map Prod.fst

/-- Source `Calc._save_to_scratch` (calc.py lines 717-736) as a function of the
pre-existing artifact at the path (`none` when opening it fails, giving
the empty `xray.Dataset`): a region-keyed output (`reg` occurring in
dtype_out_time`) merges the new region results into the artifact; any
other output replaces it. -/
def saveToScratch {α : Type} (dtypeOutTime : String)
    (existing : Option (List (String × α))) (data : List (String × α)) :
    List (String × α) :=
  if strContains dtypeOutTime "reg" then dsUpdate (existing.getD []) data
  else data

/-- The parameters the scratch/archive path scheme depends on, as bound by
`CalcInterface.__init__` (calc.py lines 66-138) for a single run: the
derived project/model/run strings, the variable name, input and output
descriptors, the ensemble member, the year bounds, and the `USER`
environment value read by `_dir_scratch`/`_dir_archive`. -/
structure CalcParams where
  user : String
  projStr : String
  modelStr : String
  runStr : String
  runStrFull : String
  name : String
  intvlIn : String
  intvlOut : String
  dtypeInTime : String
  dtypeInVert : String
  dtypeOutVert : Option String
  ensMem : Option Nat
  startYear : Int
  endYear : Int
deriving Repr, DecidableEq

/-- Modelled from the spec: `aospy.io._ens_label` is not under `src/`.
Per §6 the ensemble label is "a suffix distinguishing members of a
multi-run ensemble"; empty when there is no ensemble member. -/
def ensLabel : Option Nat → String
  | none => ""
  | some n => "mem" ++ toString n

/-- Modelled from the spec: `aospy.io._data_out_label` is not under
`src/`.  Per §6 the output label encodes the output interval, the
reduction kind, and the optional vertical flag. -/
def dataOutLabel (intvlOut dtypeOutTime : String) (dtypeVert : Option String) :
    String :=
  intvlOut ++ "." ++ dtypeOutTime ++
    (match dtypeVert with
     | some v => "." ++ v
     | none => "")

/-- Modelled from the spec: `aospy.io._data_in_label` is not under
`src/`.  Per §6 the input label encodes the input interval and the
time/vertical input descriptors. -/
def dataInLabel (intvlIn dtypeInTime dtypeInVert : String) : String :=
  intvlIn ++ "_" ++ dtypeInTime ++ "_" ++ dtypeInVert

/-- Modelled from the spec: `aospy.io._yr_label` is not under `src/`.
Per §6 the year-range label encodes the start and end years. -/
def yrLabel (startYear endYear : Int) : String :=
  toString startYear ++ "-" ++ toString endYear

/-- Source `Calc._file_name` (calc.py lines 168-180): join the name, output
label, input label, model string, full run string, ensemble label, year
label and extension with dots, then collapse a double dot to a single
dot. -/
def fileName (p : CalcParams) (dtypeOutTime : String) (ext : String) : String :=
  (String.intercalate "."
    [p.name,
     dataOutLabel p.intvlOut dtypeOutTime p.dtypeOutVert,
     dataInLabel p.intvlIn p.dtypeInTime p.dtypeInVert,
     p.modelStr, p.runStrFull, ensLabel p.ensMem,
     yrLabel p.startYear p.endYear, ext]).replace ".." "."

/-- Source `Calc._dir_scratch` (calc.py lines 154-159). -/
def dirScratch (p : CalcParams) : String :=
  String.intercalate "/"
    ["/work", p.user, p.projStr, p.modelStr, p.runStr, ensLabel p.ensMem,
     p.name]

/-- Source `Calc._path_scratch` (calc.py lines 182-183). -/
def pathScratch (p : CalcParams) (dtypeOutTime : String) : String :=
  joinPath (dirScratch p) (fileName p dtypeOutTime "nc")

/-- Source `Calc._dir_archive` (calc.py lines 161-166). -/
def dirArchive (p : CalcParams) : String :=
  String.intercalate "/"
    ["/archive", p.user, p.projStr, "data", p.modelStr, p.runStr,
     ensLabel p.ensMem]

/-- Source `Calc._path_archive` (calc.py lines 185-186). -/
def pathArchive (p : CalcParams) : String :=
  joinPath (dirArchive p) "data.tar"

/-- The archive entry name used by `Calc._save_to_archive` (calc.py line
766): the `arcname` is the file name itself. -/
def archiveEntryName (p : CalcParams) (dtypeOutTime : String) : String :=
  fileName p dtypeOutTime "nc"

/-- True exactly on `Except.ok` (Python: the call returned instead of
raising). -/
def exceptOk {ε α : Type} : Except ε α → Bool
  | .ok _ => true
  | .error _ => false

/-- True exactly on save events of a `Calc.compute` trace. -/
def isSaveEvent : Event → Bool
  | .save _ => true
  | _ => false

/-- A one-alias variable for concrete checks. -/
def exVarT : Var := ⟨"t", ["temp"]⟩

/-- A two-alias variable for concrete checks. -/
def exVarTemp : Var := ⟨"t", ["temp", "temp2"]⟩

/-- A dataset containing only the second alias of `exVarTemp`. -/
def exDset : Dset Int := [("temp2", 5), ("x", 7)]

/-- A concrete GFDL loader: root directory, 5 years per file, data
starting in 1980. -/
def exGfdlLoader : GFDLDataLoader := ⟨"/rootdir", 5, 1980⟩

/-- The paths the concrete GFDL loader generates for alias `temp` over
1983-1984. -/
def exGfdlFiles : List String :=
  exGfdlLoader.inputDataPathsGfdl "temp" 1983 1984 "atmos" "monthly" "pres"
    "ts" "monthly"

/-- A flat-dictionary loader storing an unsorted, duplicated file list. -/
def exDictLoader : DictDataLoader := ⟨[("monthly", ["b", "a", "a"])]⟩

/-- One year of sub-yearly data: durations 1, 2, 1 and values
10, 10, 40. -/
def exEntries : List (Int × ℚ × ℚ) := [(2000, 10, 1), (2000, 10, 2), (2000, 40, 1)]

/-- A region covering the northern hemisphere. -/
def nhRegion : Region := ⟨"nh", [((0, 90), (0, 360))], .offMode⟩

/-- A region covering the southern hemisphere. -/
def shRegion : Region := ⟨"sh", [((-90, 0), (0, 360))], .offMode⟩

/-- A two-cell grid, one cell per hemisphere, uniform value 5 and uniform
cell area. -/
def exGrid : GridData := ⟨[⟨45, 180, 1, 5, 0⟩, ⟨-45, 180, 1, 5, 0⟩], false⟩

/-- A pre-existing region artifact with one key. -/
def exPrevDs : List (String × Int) := [("globe", 1)]

/-- A newly computed region result sharing one key with `exPrevDs`. -/
def exNewDs : List (String × Int) := [("globe", 5), ("nh", 2)]

/-- Concrete path-scheme parameters. -/
def exCalcParams : CalcParams :=
  ⟨"user1", "proj1", "am2", "run1", "run1", "t", "monthly", "jas", "ts",
   "pres", none, none, 1983, 1998⟩

theorem seriesMul_arrOf_dtOf (entries : List (Int × ℚ × ℚ)) :
    seriesMul (arrOf entries) (dtOf entries) =
      entries.map (fun e => (e.1, e.2.1 * e.2.2)) := by
  simp [seriesMul, arrOf, dtOf, List.zipWith_map, List.zipWith_same]

theorem groupSumByYear_map (f : Int × ℚ × ℚ → ℚ)
    (entries : List (Int × ℚ × ℚ)) (y : Int) :
    groupSumByYear (entries.map (fun e => (e.1, f e))) y =
      ((entries.filter (fun e => e.1 == y)).map f).sum := by
  simp [groupSumByYear, List.filter_map, List.map_map, Function.comp_def]

/-- C1: for a fixed (variable, run, date-range, output-spec) tuple —
captured by `CalcParams`, which also carries the `USER` environment value —
the scratch path and the archive entry name are deterministic functions of
those parameters: equal parameters give equal strings. -/
theorem C1_deterministic_paths (p q : CalcParams) (d e : String)
    (hpq : p = q) (hde : d = e) :
    pathScratch p d = pathScratch q e ∧
      archiveEntryName p d = archiveEntryName q e := by
  subst hpq; subst hde; exact ⟨rfl, rfl⟩

theorem C1_deterministic_paths_witness :
    pathScratch exCalcParams "av" = pathScratch exCalcParams "av" ∧
      archiveEntryName exCalcParams "av" = archiveEntryName exCalcParams "av" :=
  C1_deterministic_paths exCalcParams exCalcParams "av" "av" rfl rfl

/-- C3: the year-averaging step `Calc._avg_by_year` computes, for each
calendar year, the duration-weighted mean sum(value_i * duration_i) /
sum(duration_i) over the timesteps of that year; on durations 1, 2, 1 and
values 10, 10, 40 it gives 35/2 = 17.5, not the unweighted mean 20; and
for instantaneous input `Calc._compute` uses unit weights. -/
theorem C3_year_weighted_average :
    (∀ (entries : List (Int × ℚ × ℚ)) (y : Int),
      avgByYear (arrOf entries) (dtOf entries) y = specWeightedMeanYear entries y)
    ∧ avgByYear (arrOf exEntries) (dtOf exEntries) 2000 = 35 / 2
    ∧ specWeightedMeanYear exEntries 2000 ≠ 20
    ∧ (∀ (dtStored : YearSeries) (axis : List Int),
        computeDt "inst" dtStored axis = axis.map (fun y => (y, (1 : ℚ)))) := by
  have hgen : ∀ (entries : List (Int × ℚ × ℚ)) (y : Int),
      avgByYear (arrOf entries) (dtOf entries) y = specWeightedMeanYear entries y := by
    intro entries y
    unfold avgByYear specWeightedMeanYear
    rw [seriesMul_arrOf_dtOf, groupSumByYear_map (fun e => e.2.1 * e.2.2)]
    have hdt : dtOf entries = entries.map (fun e => (e.1, e.2.2)) := rfl
    rw [hdt, groupSumByYear_map (fun e => e.2.2)]
  refine ⟨hgen, ?_, ?_, fun dtStored axis => rfl⟩
  · rw [hgen]
    norm_num [specWeightedMeanYear, exEntries]
  · norm_num [specWeightedMeanYear, exEntries]

theorem C3_year_weighted_average_witness :
    avgByYear (arrOf exEntries) (dtOf exEntries) 2000 = 35 / 2 :=
  C3_year_weighted_average.2.1

/-- C4: for instantaneous GFDL input the loader shifts the time axis by
-3 hours for 3-hourly and -6 hours for 6-hourly input, the shift happens
before the date-range selection of `load_variable`, nominal stamps
3, 6, 9 become 0, 3, 6, and `Calc._correct_gfdl_inst_time` applies the
same offsets. -/
theorem C4_inst_time_offset :
    (∀ ts : List ℚ, maybeApplyTimeShiftGFDL none (some "inst") (some "3hr") ts
        = ts.map (fun t => t - 3))
    ∧ (∀ ts : List ℚ, maybeApplyTimeShiftGFDL none (some "inst") (some "6hr") ts
        = ts.map (fun t => t - 6))
    ∧ (∀ (timeOffset : Option Int) (dtypeInTime intvlIn : Option String)
        (s e : ℚ) (ts : List ℚ),
        loadVariableTimesGFDL timeOffset dtypeInTime intvlIn s e ts
          = selTime s e (maybeApplyTimeShiftGFDL timeOffset dtypeInTime intvlIn ts))
    ∧ (maybeApplyTimeShiftGFDL none (some "inst") (some "3hr") [3, 6, 9] = [0, 3, 6])
    ∧ (∀ ts : List ℚ, correctGfdlInstTime "3hr" ts = some (ts.map (fun t => t - 3))
        ∧ correctGfdlInstTime "6hr" ts = some (ts.map (fun t => t - 6))) := by
  have h3 : ∀ ts : List ℚ, applyTimeOffsetHours (-3) ts = ts.map (fun t => t - 3) := by
    intro ts
    exact List.map_congr_left (fun a _ => by push_cast; ring)
  have h6 : ∀ ts : List ℚ, applyTimeOffsetHours (-6) ts = ts.map (fun t => t - 6) := by
    intro ts
    exact List.map_congr_left (fun a _ => by push_cast; ring)
  have hshift3 : ∀ ts : List ℚ,
      maybeApplyTimeShiftGFDL none (some "inst") (some "3hr") ts
        = ts.map (fun t => t - 3) := by
    intro ts
    have h : maybeApplyTimeShiftGFDL none (some "inst") (some "3hr") ts
        = applyTimeOffsetHours (-3) ts := rfl
    rw [h, h3]
  refine ⟨hshift3, ?_, fun _ _ _ _ _ _ => rfl, ?_, ?_⟩
  · intro ts
    have h : maybeApplyTimeShiftGFDL none (some "inst") (some "6hr") ts
        = applyTimeOffsetHours (-6) ts := rfl
    rw [h, h6]
  · rw [hshift3]
    norm_num
  · intro ts
    constructor
    · have h : correctGfdlInstTime "3hr" ts = some (applyTimeOffsetHours (-3) ts) := rfl
      rw [h, h3]
    · have h : correctGfdlInstTime "6hr" ts = some (applyTimeOffsetHours (-6) ts) := rfl
      rw [h, h6]

/-- C10: when the requested date range is empty at year granularity
(start year strictly greater than end year), the GFDL file-set generation
succeeds with the empty list for the first alias: per-year path
generation produces no candidates and `all` over the empty collection is
vacuously true. -/
theorem C10_empty_range_gfdl (ldr : GFDLDataLoader) (fs : List String)
    (var : Var) (n : String) (rest : List String) (startYear endYear : Int)
    (domain intvlIn dtypeInVert dtypeInTime intvlOut : String)
    (hnames : var.names = n :: rest) (hrange : endYear < startYear) :
    ldr.generateFileSet fs var startYear endYear domain intvlIn dtypeInVert
        dtypeInTime intvlOut = .ok [] ∧
    ldr.inputDataPathsGfdl n startYear endYear domain intvlIn dtypeInVert
        dtypeInTime intvlOut = [] := by
  have hyr : yearRange startYear endYear = [] := by
    unfold yearRange
    rw [if_neg (by omega)]
  have hpaths : ∀ m, ldr.inputDataPathsGfdl m startYear endYear domain intvlIn
      dtypeInVert dtypeInTime intvlOut = [] := by
    intro m
    simp [GFDLDataLoader.inputDataPathsGfdl, hyr, dedupSort]
  refine ⟨?_, hpaths n⟩
  unfold GFDLDataLoader.generateFileSet
  rw [hnames]
  simp [GFDLDataLoader.generateFileSet.go, hpaths n]

theorem C10_empty_range_gfdl_witness :
    exGfdlLoader.generateFileSet [] exVarT 1985 1984 "atmos" "monthly" "pres"
        "ts" "monthly" = .ok [] ∧
    exGfdlLoader.inputDataPathsGfdl "temp" 1985 1984 "atmos" "monthly" "pres"
        "ts" "monthly" = [] :=
  C10_empty_range_gfdl exGfdlLoader [] exVarT "temp" [] 1985 1984 "atmos"
    "monthly" "pres" "ts" "monthly" rfl (by norm_num)

theorem selVar_go_ok {α : Type} (ds : Dset α) (var : Var) :
    ∀ (pre : List String) (n : String) (post : List String) (d : α),
      (∀ m ∈ pre, (ds : List (String × α)).lookup m = none) →
      (ds : List (String × α)).lookup n = some d →
      selVar.go ds var (pre ++ n :: post) = .ok (var.name, d) := by
  intro pre
  induction pre with
  | nil =>
    intro n post d _ hn
    simp [selVar.go, hn]
  | cons m pre ih =>
    intro n post d hpre hn
    have hm : (ds : List (String × α)).lookup m = none := hpre m (by simp)
    simp only [List.cons_append, selVar.go, hm]
    exact ih n post d (fun x hx => hpre x (by simp [hx])) hn

theorem selVar_go_none {α : Type} (ds : Dset α) (var : Var) :
    ∀ l : List String, (∀ m ∈ l, (ds : List (String × α)).lookup m = none) →
      selVar.go ds var l = .error (selVarErrMsg var) := by
  intro l
  induction l with
  | nil => intro _; rfl
  | cons m t ih =>
    intro h
    have hm : (ds : List (String × α)).lookup m = none := h m (by simp)
    simp only [selVar.go, hm]
    exact ih (fun x hx => h x (by simp [hx]))

/-- C2: `DataLoader._sel_var` tries the declared aliases in priority
order: if the aliases before `n` are absent and `n` is present, the data
stored under `n` is returned renamed to the canonical variable name; if
no alias is present, the VariableNotFound `KeyError` is raised. -/
theorem C2_alias_resolution {α : Type} (ds : Dset α) (var : Var) :
    (∀ (pre : List String) (n : String) (post : List String) (d : α),
        var.names = pre ++ n :: post →
        (∀ m ∈ pre, (ds : List (String × α)).lookup m = none) →
        (ds : List (String × α)).lookup n = some d →
        selVar ds var = .ok (var.name, d))
    ∧ ((∀ m ∈ var.names, (ds : List (String × α)).lookup m = none) →
        selVar ds var = .error (selVarErrMsg var)) := by
  constructor
  · intro pre n post d hnames hpre hn
    unfold selVar
    rw [hnames]
    exact selVar_go_ok ds var pre n post d hpre hn
  · intro h
    unfold selVar
    exact selVar_go_none ds var var.names h

theorem C2_alias_resolution_witness :
    selVar exDset exVarTemp = .ok ("t", 5) ∧
      selVar ([] : Dset Int) exVarTemp = .error (selVarErrMsg exVarTemp) :=
  ⟨(C2_alias_resolution exDset exVarTemp).1 ["temp"] "temp2" [] 5 rfl
      (by decide) (by decide),
   (C2_alias_resolution ([] : Dset Int) exVarTemp).2 (by decide)⟩

/-- C9: for every region whose total inclusion weight is nonzero, the
region-average `Region.ts` of a spatially uniform field equals that
uniform value — the area and land-mask weights cancel between numerator
and denominator. -/
theorem C9_uniform_region_average (r : Region) (g : GridData) (v : ℚ)
    (hw : regionWeights r g ≠ 0) (hv : ∀ c ∈ g.cells, c.value = v) :
    regionTs r g = v := by
  unfold regionWeights at hw
  simp only [regionTs]
  have hnum : (g.cells.filter (makeMask r)).map
      (fun c => c.value * c.area * landMaskFactor g r.doLandMask c) =
      (g.cells.filter (makeMask r)).map
      (fun c => v * (c.area * landMaskFactor g r.doLandMask c)) := by
    refine List.map_congr_left ?_
    intro c hc
    rw [hv c (List.mem_filter.mp hc).1, mul_assoc]
  rw [hnum, List.sum_map_mul_left, mul_div_assoc, div_self hw, mul_one]

theorem C9_uniform_region_average_witness :
    regionTs nhRegion exGrid = 5 ∧ regionTs shRegion exGrid = 5 :=
  ⟨C9_uniform_region_average nhRegion exGrid 5
      (by norm_num [regionWeights, exGrid, nhRegion, makeMask, addToMask,
        landMaskFactor])
      (by decide),
   C9_uniform_region_average shRegion exGrid 5
      (by norm_num [regionWeights, exGrid, shRegion, makeMask, addToMask,
        landMaskFactor])
      (by decide)⟩

theorem dsKeys_dsUpdate {α : Type} (old new : List (String × α)) :
    dsKeys (dsUpdate old new) =
      dsKeys old ++ dsKeys (new.filter (fun p => !(dsKeys old).contains p.1)) := by
  simp [dsUpdate, dsKeys, List.map_map, Function.comp_def]

theorem mem_dsKeys_dsUpdate {α : Type} (old new : List (String × α)) (k : String) :
    k ∈ dsKeys (dsUpdate old new) ↔ k ∈ dsKeys old ∨ k ∈ dsKeys new := by
  rw [dsKeys_dsUpdate]
  simp only [List.mem_append]
  constructor
  · rintro (h | h)
    · exact .inl h
    · right
      simp only [dsKeys, List.mem_map, List.mem_filter] at h ⊢
      obtain ⟨p, ⟨hp, _⟩, hk⟩ := h
      exact ⟨p, hp, hk⟩
  · rintro (h | h)
    · exact .inl h
    · by_cases hold : k ∈ dsKeys old
      · exact .inl hold
      · right
        simp only [dsKeys, List.mem_map] at h hold ⊢
        obtain ⟨p, hp, hk⟩ := h
        refine ⟨p, List.mem_filter.mpr ⟨hp, ?_⟩, hk⟩
        simp only [dsKeys, Bool.not_eq_true', List.contains, List.elem_eq_mem,
          decide_eq_false_iff_not, List.mem_map]
        rw [hk]
        exact hold

theorem dsKeys_dsUpdate_nodup {α : Type} (old new : List (String × α))
    (hold : (dsKeys old).Nodup) (hnew : (dsKeys new).Nodup) :
    (dsKeys (dsUpdate old new)).Nodup := by
  rw [dsKeys_dsUpdate]
  refine List.Nodup.append hold ?_ ?_
  · have hsub : List.Sublist
        ((new.filter (fun p => !(dsKeys old).contains p.1)).map Prod.fst)
        (new.map Prod.fst) := (List.filter_sublist _).map _
    exact hnew.sublist hsub
  · intro k hk1 hk2
    simp only [dsKeys, List.mem_map, List.mem_filter] at hk2
    obtain ⟨p, ⟨hp, hcond⟩, hkp⟩ := hk2
    rw [hkp] at hcond
    simp only [dsKeys, Bool.not_eq_true', List.contains, List.elem_eq_mem,
      decide_eq_false_iff_not] at hcond
    exact hcond hk1

/-- C8: `Calc._save_to_scratch` for region-keyed outputs is merge-only
and idempotent: the written key set is the union of the pre-existing
artifact keys and the new keys, without duplicates; saving the same
region result twice yields the same key set; and no pre-existing key is
ever removed. -/
theorem C8_region_save_merge {α : Type} (dout : String)
    (prev data : List (String × α))
    (hreg : strContains dout "reg" = true)
    (hprev : (dsKeys prev).Nodup) (hdata : (dsKeys data).Nodup) :
    (∀ k, k ∈ dsKeys (saveToScratch dout (some prev) data) ↔
        (k ∈ dsKeys prev ∨ k ∈ dsKeys data))
    ∧ (dsKeys (saveToScratch dout (some prev) data)).Nodup
    ∧ (∀ k, k ∈ dsKeys (saveToScratch dout
          (some (saveToScratch dout (some prev) data)) data) ↔
        k ∈ dsKeys (saveToScratch dout (some prev) data))
    ∧ (∀ k, k ∈ dsKeys prev →
        k ∈ dsKeys (saveToScratch dout (some prev) data)) := by
  have hsave : ∀ old : List (String × α),
      saveToScratch dout (some old) data = dsUpdate old data := by
    intro old
    simp [saveToScratch, hreg]
  simp only [hsave]
  refine ⟨fun k => mem_dsKeys_dsUpdate prev data k,
    dsKeys_dsUpdate_nodup prev data hprev hdata, ?_, ?_⟩
  · intro k
    simp only [mem_dsKeys_dsUpdate]
    tauto
  · intro k hk
    rw [mem_dsKeys_dsUpdate]
    exact .inl hk

theorem C8_region_save_merge_witness :
    ("nh" ∈ dsKeys (saveToScratch "reg.av" (some exPrevDs) exNewDs) ↔
        ("nh" ∈ dsKeys exPrevDs ∨ "nh" ∈ dsKeys exNewDs))
    ∧ ("globe" ∈ dsKeys exPrevDs →
        "globe" ∈ dsKeys (saveToScratch "reg.av" (some exPrevDs) exNewDs))
    ∧ (dsKeys (saveToScratch "reg.av" (some exPrevDs) exNewDs)).Nodup := by
  obtain ⟨h1, h2, _, h4⟩ :=
    C8_region_save_merge "reg.av" exPrevDs exNewDs (by decide) (by decide)
      (by decide)
  exact ⟨h1 "nh", h4 "globe", h2⟩

theorem gfdl_go_ok (ldr : GFDLDataLoader) (fs : List String) (var : Var)
    (startYear endYear : Int)
    (domain intvlIn dtypeInVert dtypeInTime intvlOut : String) :
    ∀ (pre : List String) (n : String) (post : List String),
      (∀ m ∈ pre, ((ldr.inputDataPathsGfdl m startYear endYear domain intvlIn
          dtypeInVert dtypeInTime intvlOut).all (fs.contains ·)) = false) →
      ((ldr.inputDataPathsGfdl n startYear endYear domain intvlIn dtypeInVert
          dtypeInTime intvlOut).all (fs.contains ·)) = true →
      GFDLDataLoader.generateFileSet.go ldr fs var startYear endYear domain
          intvlIn dtypeInVert dtypeInTime intvlOut (pre ++ n :: post) =
        .ok (ldr.inputDataPathsGfdl n startYear endYear domain intvlIn
          dtypeInVert dtypeInTime intvlOut) := by
  intro pre
  induction pre with
  | nil =>
    intro n post _ hn
    simp only [List.nil_append, GFDLDataLoader.generateFileSet.go, hn]
    simp
  | cons m pre ih =>
    intro n post hpre hn
    have hm := hpre m (by simp)
    simp only [List.cons_append, GFDLDataLoader.generateFileSet.go, hm]
    simp only [Bool.false_eq_true, if_false]
    exact ih n post (fun x hx => hpre x (by simp [hx])) hn

theorem gfdl_go_none (ldr : GFDLDataLoader) (fs : List String) (var : Var)
    (startYear endYear : Int)
    (domain intvlIn dtypeInVert dtypeInTime intvlOut : String) :
    ∀ l : List String,
      (∀ m ∈ l, ((ldr.inputDataPathsGfdl m startYear endYear domain intvlIn
          dtypeInVert dtypeInTime intvlOut).all (fs.contains ·)) = false) →
      GFDLDataLoader.generateFileSet.go ldr fs var startYear endYear domain
          intvlIn dtypeInVert dtypeInTime intvlOut l =
        .error (gfdlLocateErrMsg var.name) := by
  intro l
  induction l with
  | nil => intro _; rfl
  | cons m t ih =>
    intro h
    have hm := h m (by simp)
    simp only [GFDLDataLoader.generateFileSet.go, hm]
    simp only [Bool.false_eq_true, if_false]
    exact ih (fun x hx => h x (by simp [hx]))

/-- C5 counterexample: with an empty file system and the empty date range
1985-1984, the GFDL locator succeeds with the empty file set for the
first alias instead of failing — so "returns the file set of the first
alias for which a non-empty, fully-resolvable file set exists" is false —
and when it does fail (range 1983-1984) its NotFound message names the
variable but mentions neither bound of the date range. -/
theorem C5_counterexample :
    exGfdlLoader.generateFileSet [] exVarT 1985 1984 "atmos" "monthly" "pres"
        "ts" "monthly" = .ok []
    ∧ exGfdlLoader.generateFileSet [] exVarT 1983 1984 "atmos" "monthly"
        "pres" "ts" "monthly" = .error (gfdlLocateErrMsg "t")
    ∧ strContains (gfdlLocateErrMsg "t") "1983" = false
    ∧ strContains (gfdlLocateErrMsg "t") "1984" = false := by
  refine ⟨rfl, rfl, by decide, by decide⟩

/-- C5 amended: the GFDL locator tries each alias in declared priority
order and returns the generated file set of the first alias all of whose
paths exist — that set may be empty, in which case it is still returned
successfully; if no alias resolves, it fails with an IOError naming the
variable (but not the date range). -/
theorem C5_amended_first_existing_alias (ldr : GFDLDataLoader)
    (fs : List String) (var : Var) (startYear endYear : Int)
    (domain intvlIn dtypeInVert dtypeInTime intvlOut : String) :
    (∀ (pre : List String) (n : String) (post : List String),
        var.names = pre ++ n :: post →
        (∀ m ∈ pre, ((ldr.inputDataPathsGfdl m startYear endYear domain
            intvlIn dtypeInVert dtypeInTime intvlOut).all
            (fs.contains ·)) = false) →
        ((ldr.inputDataPathsGfdl n startYear endYear domain intvlIn
            dtypeInVert dtypeInTime intvlOut).all (fs.contains ·)) = true →
        ldr.generateFileSet fs var startYear endYear domain intvlIn
            dtypeInVert dtypeInTime intvlOut =
          .ok (ldr.inputDataPathsGfdl n startYear endYear domain intvlIn
            dtypeInVert dtypeInTime intvlOut))
    ∧ ((∀ m ∈ var.names, ((ldr.inputDataPathsGfdl m startYear endYear domain
          intvlIn dtypeInVert dtypeInTime intvlOut).all
          (fs.contains ·)) = false) →
        ldr.generateFileSet fs var startYear endYear domain intvlIn
            dtypeInVert dtypeInTime intvlOut =
          .error (gfdlLocateErrMsg var.name)) := by
  constructor
  · intro pre n post hnames hpre hn
    unfold GFDLDataLoader.generateFileSet
    rw [hnames]
    exact gfdl_go_ok ldr fs var startYear endYear domain intvlIn dtypeInVert
      dtypeInTime intvlOut pre n post hpre hn
  · intro h
    unfold GFDLDataLoader.generateFileSet
    exact gfdl_go_none ldr fs var startYear endYear domain intvlIn dtypeInVert
      dtypeInTime intvlOut var.names h

theorem C5_amended_first_existing_alias_witness :
    exGfdlLoader.generateFileSet exGfdlFiles exVarT 1983 1984 "atmos"
        "monthly" "pres" "ts" "monthly" = .ok exGfdlFiles
    ∧ exGfdlLoader.generateFileSet [] exVarT 1983 1984 "atmos" "monthly"
        "pres" "ts" "monthly" = .error (gfdlLocateErrMsg "t") :=
  ⟨(C5_amended_first_existing_alias exGfdlLoader exGfdlFiles exVarT 1983 1984
      "atmos" "monthly" "pres" "ts" "monthly").1 [] "temp" [] rfl (by simp)
      (by decide),
   (C5_amended_first_existing_alias exGfdlLoader [] exVarT 1983 1984 "atmos"
      "monthly" "pres" "ts" "monthly").2 (by decide)⟩

theorem charToNat_inj {a b : Char} (h : a.toNat = b.toNat) : a = b :=
  Char.ext (UInt32.toNat.inj h)

theorem charListLt_trans : ∀ as bs cs : List Char,
    charListLt as bs = true → charListLt bs cs = true →
      charListLt as cs = true := by
  intro as
  induction as with
  | nil =>
    intro bs cs hab hbc
    cases cs with
    | nil =>
      cases bs with
      | nil => simp [charListLt] at hab
      | cons b bst => simp [charListLt] at hbc
    | cons c cst => simp [charListLt]
  | cons a ast ih =>
    intro bs cs hab hbc
    cases bs with
    | nil => simp [charListLt] at hab
    | cons b bst =>
      cases cs with
      | nil => simp [charListLt] at hbc
      | cons c cst =>
        simp only [charListLt] at hab hbc ⊢
        split_ifs at hab hbc ⊢ <;>
          first
            | rfl
            | omega
            | exact ih bst cst hab hbc

theorem charListLt_connex : ∀ as bs : List Char,
    as = bs ∨ charListLt as bs = true ∨ charListLt bs as = true := by
  intro as
  induction as with
  | nil =>
    intro bs
    cases bs with
    | nil => exact .inl rfl
    | cons b bst => exact .inr (.inl (by simp [charListLt]))
  | cons a ast ih =>
    intro bs
    cases bs with
    | nil => exact .inr (.inr (by simp [charListLt]))
    | cons b bst =>
      rcases Nat.lt_trichotomy a.toNat b.toNat with h | h | h
      · exact .inr (.inl (by simp [charListLt, h]))
      · rcases ih bst with h2 | h2 | h2
        · exact .inl (by rw [charToNat_inj h, h2])
        · exact .inr (.inl (by simp [charListLt, h, h2]))
        · exact .inr (.inr (by simp [charListLt, h, h2]))
      · exact .inr (.inr (by simp [charListLt, h]))

theorem strLe_trans {a b c : String} (hab : strLe a b = true)
    (hbc : strLe b c = true) : strLe a c = true := by
  simp only [strLe, Bool.or_eq_true, beq_iff_eq] at hab hbc ⊢
  rcases hab with rfl | hab
  · exact hbc
  · rcases hbc with rfl | hbc
    · exact .inr hab
    · exact .inr (charListLt_trans _ _ _ hab hbc)

theorem strLe_total (a b : String) : strLe a b = true ∨ strLe b a = true := by
  simp only [strLe, Bool.or_eq_true, beq_iff_eq]
  rcases charListLt_connex a.data b.data with h | h | h
  · exact .inl (.inl (String.ext h))
  · exact .inl (.inr h)
  · exact .inr (.inr h)

instance strLeIsTrans : IsTrans String (fun a b => strLe a b = true) :=
  ⟨fun _ _ _ => strLe_trans⟩

instance strLeIsTotal : IsTotal String (fun a b => strLe a b = true) :=
  ⟨strLe_total⟩

theorem dedupSort_sorted_nodup (files : List String) :
    (dedupSort files).Sorted (fun a b => strLe a b = true) ∧
      (dedupSort files).Nodup :=
  ⟨List.sorted_insertionSort _ _,
   ((List.perm_insertionSort _ _).nodup_iff).mpr (List.nodup_dedup files)⟩

theorem inputDataPathsGfdl_sorted_nodup (ldr : GFDLDataLoader) (name : String)
    (startYear endYear : Int)
    (domain intvlIn dtypeInVert dtypeInTime intvlOut : String) :
    (ldr.inputDataPathsGfdl name startYear endYear domain intvlIn dtypeInVert
        dtypeInTime intvlOut).Sorted (fun a b => strLe a b = true) ∧
    (ldr.inputDataPathsGfdl name startYear endYear domain intvlIn dtypeInVert
        dtypeInTime intvlOut).Nodup := by
  simp only [GFDLDataLoader.inputDataPathsGfdl]
  exact dedupSort_sorted_nodup _

theorem gfdl_go_ok_shape (ldr : GFDLDataLoader) (fs : List String) (var : Var)
    (startYear endYear : Int)
    (domain intvlIn dtypeInVert dtypeInTime intvlOut : String) :
    ∀ (l : List String) (res : List String),
      GFDLDataLoader.generateFileSet.go ldr fs var startYear endYear domain
          intvlIn dtypeInVert dtypeInTime intvlOut l = .ok res →
      ∃ n, res = ldr.inputDataPathsGfdl n startYear endYear domain intvlIn
        dtypeInVert dtypeInTime intvlOut := by
  intro l
  induction l with
  | nil =>
    intro res h
    simp [GFDLDataLoader.generateFileSet.go] at h
  | cons n rest ih =>
    intro res h
    simp only [GFDLDataLoader.generateFileSet.go] at h
    split at h
    · injection h with h
      exact ⟨n, h.symm⟩
    · exact ih res h

/-- C6 counterexample: the flat-dictionary locator returns the stored
list verbatim — here an unsorted list with a duplicate — so "for every
locator strategy the returned list is sorted and contains no duplicates"
is false. -/
theorem C6_counterexample :
    exDictLoader.generateFileSet "monthly" = .ok ["b", "a", "a"]
    ∧ ¬ (["b", "a", "a"] : List String).Nodup := ⟨rfl, by decide⟩

/-- C6 amended: only the structured-template (GFDL) strategy returns a
sorted, duplicate-free path list (so its ordering is canonical and
stable); the flat- and nested-dictionary strategies return the stored
file list verbatim, exactly as configured. -/
theorem C6_amended_sorted_dedup :
    (∀ (ldr : GFDLDataLoader) (fs : List String) (var : Var)
        (startYear endYear : Int)
        (domain intvlIn dtypeInVert dtypeInTime intvlOut : String)
        (l : List String),
        ldr.generateFileSet fs var startYear endYear domain intvlIn
            dtypeInVert dtypeInTime intvlOut = .ok l →
        l.Sorted (fun a b => strLe a b = true) ∧ l.Nodup)
    ∧ (∀ (ldr : DictDataLoader) (intvlIn : String) (stored : List String),
        ldr.fileMap.lookup intvlIn = some stored →
        ldr.generateFileSet intvlIn = .ok stored)
    ∧ (∀ (ldr : NestedDictDataLoader) (var : Var) (intvlIn n : String)
        (rest : List String) (inner : List (String × List String))
        (stored : List String),
        var.names = n :: rest →
        ldr.fileMap.lookup intvlIn = some inner →
        inner.lookup n = some stored →
        ldr.generateFileSet var intvlIn = .ok stored) := by
  refine ⟨?_, ?_, ?_⟩
  · intro ldr fs var startYear endYear domain intvlIn dtypeInVert dtypeInTime
      intvlOut l h
    unfold GFDLDataLoader.generateFileSet at h
    obtain ⟨n, rfl⟩ := gfdl_go_ok_shape ldr fs var startYear endYear domain
      intvlIn dtypeInVert dtypeInTime intvlOut var.names l h
    exact inputDataPathsGfdl_sorted_nodup ldr n startYear endYear domain
      intvlIn dtypeInVert dtypeInTime intvlOut
  · intro ldr intvlIn stored h
    simp [DictDataLoader.generateFileSet, h]
  · intro ldr var intvlIn n rest inner stored hnames hinner hstored
    unfold NestedDictDataLoader.generateFileSet
    rw [hnames]
    simp [NestedDictDataLoader.generateFileSet.go, hinner, hstored]

theorem C6_amended_sorted_dedup_witness :
    (exGfdlFiles.Sorted (fun a b => strLe a b = true) ∧ exGfdlFiles.Nodup)
    ∧ exDictLoader.generateFileSet "monthly" = .ok ["b", "a", "a"] :=
  ⟨C6_amended_sorted_dedup.1 exGfdlLoader exGfdlFiles exVarT 1983 1984 "atmos"
      "monthly" "pres" "ts" "monthly" exGfdlFiles rfl,
   C6_amended_sorted_dedup.2.1 exDictLoader "monthly" ["b", "a", "a"] rfl⟩

theorem gather_mem_gatherEvents (dtInTime : String) (douts : List String) :
    Event.gather ∈ gatherEvents dtInTime douts := by
  simp only [gatherEvents]
  split <;> split <;> simp

theorem gatherEvents_no_save (dtInTime : String) (douts : List String) :
    ∀ e ∈ gatherEvents dtInTime douts, isSaveEvent e = false := by
  intro e he
  cases e <;> try rfl
  exfalso
  simp only [gatherEvents] at he
  split at he <;> split at he <;> simp at he

theorem reduceEvents_err_of_bad (dtInTime : String) :
    ∀ (pre : List String) (d : String) (post : List String) (acc : List Event),
      ((strSplitDot d).contains "reg") = false →
      exceptOk (timeReduce ((strSplitDot d).getLastD "")) = false →
      exceptOk (reduceEvents dtInTime (pre ++ d :: post) acc).2 = false := by
  intro pre
  induction pre with
  | nil =>
    intro d post acc hreg hbad
    simp only [List.nil_append, reduceEvents, hreg]
    cases h : timeReduce ((strSplitDot d).getLastD "") with
    | ok op => rw [h] at hbad; simp [exceptOk] at hbad
    | error m => simp [h, exceptOk]
  | cons p pre ih =>
    intro d post acc hreg hbad
    simp only [List.cons_append, reduceEvents]
    by_cases hpreg : ((strSplitDot p).contains "reg") = true
    · by_cases hav : strContains dtInTime "av" = true
      · simp only [hpreg, hav, if_true]
        exact ih d post _ hreg hbad
      · by_cases hattr :
            (regionAttrs.contains ((strSplitDot p).getLastD "")) = true
        · simp only [hpreg, hav, hattr, if_true, Bool.false_eq_true, if_false]
          exact ih d post _ hreg hbad
        · simp only [hpreg, hav, hattr, if_true, Bool.false_eq_true, if_false]
          simp [exceptOk]
    · simp only [hpreg, Bool.false_eq_true, if_false]
      cases h : timeReduce ((strSplitDot p).getLastD "") with
      | ok op =>
        simp only [h]
        exact ih d post _ hreg hbad
      | error m => simp [h, exceptOk]

theorem reduceEvents_no_new_save (dtInTime : String) :
    ∀ (l : List String) (acc : List Event) (e : Event),
      e ∈ (reduceEvents dtInTime l acc).1 →
      e ∈ acc ∨ isSaveEvent e = false := by
  intro l
  induction l with
  | nil => intro acc e he; exact .inl he
  | cons d rest ih =>
    intro acc e he
    have step : ∀ x : Event, isSaveEvent x = false →
        e ∈ (reduceEvents dtInTime rest (acc ++ [x])).1 →
        e ∈ acc ∨ isSaveEvent e = false := by
      intro x hx hmem
      rcases ih (acc ++ [x]) e hmem with hmem2 | hmem2
      · rcases List.mem_append.mp hmem2 with h2 | h2
        · exact .inl h2
        · right
          rw [List.mem_singleton.mp h2]
          exact hx
      · exact .inr hmem2
    simp only [reduceEvents] at he
    by_cases hpreg : ((strSplitDot d).contains "reg") = true
    · by_cases hav : strContains dtInTime "av" = true
      · simp only [hpreg, hav, if_true] at he
        exact step (.regionCalc d) rfl he
      · by_cases hattr :
            (regionAttrs.contains ((strSplitDot d).getLastD "")) = true
        · simp only [hpreg, hav, hattr, if_true, Bool.false_eq_true,
            if_false] at he
          exact step (.regionCalc d) rfl he
        · simp only [hpreg, hav, hattr, if_true, Bool.false_eq_true,
            if_false] at he
          exact .inl he
    · simp only [hpreg, Bool.false_eq_true, if_false] at he
      cases h : timeReduce ((strSplitDot d).getLastD "") with
      | ok op =>
        rw [h] at he
        exact step (.reduce d) rfl he
      | error m =>
        rw [h] at he
        exact .inl he

/-- C7 counterexample: requesting the unknown output kind `blah` does
abort `Calc.compute` with the unsupported-reduction `ValueError`, but
only after input gathering and transform execution have already run — the
phase trace before the error is nonempty — so "fails before any
computation (input gathering, transform execution) proceeds" is false. -/
theorem C7_counterexample :
    computeTrace true "ts" ["blah"] =
      ([Event.gather, Event.transformFull], .error (timeReduceErrMsg "blah"))
    ∧ ([Event.gather, Event.transformFull] : List Event) ≠ [] :=
  ⟨rfl, by decide⟩

/-- C7 amended: for a time-defined variable, a requested output kind
whose terminal reducer token is outside the supported vocabulary (and
which is not routed through the regional branch) aborts the Calc unit
with the unsupported-reduction `ValueError` — but the error is raised at
the time-reduction phase, after input gathering (and transform execution)
have run, and before any save event occurs. -/
theorem C7_amended_unsupported_reduction_aborts (dtInTime : String)
    (douts pre post : List String) (d : String)
    (hsplit : douts = pre ++ d :: post)
    (hreg : ((strSplitDot d).contains "reg") = false)
    (hbad : exceptOk (timeReduce ((strSplitDot d).getLastD "")) = false) :
    exceptOk (computeTrace true dtInTime douts).2 = false
    ∧ Event.gather ∈ (computeTrace true dtInTime douts).1
    ∧ ∀ e ∈ (computeTrace true dtInTime douts).1, isSaveEvent e = false := by
  subst hsplit
  have herr := reduceEvents_err_of_bad dtInTime pre d post [] hreg hbad
  rcases hr : reduceEvents dtInTime (pre ++ d :: post) [] with ⟨revs, r⟩
  rw [hr] at herr
  cases r with
  | ok u => cases u; simp [exceptOk] at herr
  | error m =>
    refine ⟨?_, ?_, ?_⟩
    · simp [computeTrace, hr, exceptOk]
    · simp only [computeTrace, hr]
      exact List.mem_append_left _ (gather_mem_gatherEvents _ _)
    · intro e he
      simp only [computeTrace, hr] at he
      rcases List.mem_append.mp he with he2 | he2
      · exact gatherEvents_no_save _ _ e he2
      · rcases reduceEvents_no_new_save dtInTime (pre ++ d :: post) [] e
            (by rw [hr]; exact he2) with h | h
        · simp at h
        · exact h

theorem C7_amended_unsupported_reduction_aborts_witness :
    exceptOk (computeTrace true "ts" ["blah"]).2 = false
    ∧ Event.gather ∈ (computeTrace true "ts" ["blah"]).1
    ∧ ∀ e ∈ (computeTrace true "ts" ["blah"]).1, isSaveEvent e = false :=
  C7_amended_unsupported_reduction_aborts "ts" ["blah"] [] [] "blah" rfl
    (by decide) (by decide)

end Aospy
